import Mathlib

/-!
Verification of the Kudu write-ahead-log subsystem (consensus/log.cc) and of
the consensus-driver surface described by the specification, as a shallow
embedding in Lean.

The definitions mirror the C++ source: `gcLoop`/`getPrefixSizeToGC` embed
`GetPrefixSizeToGC`, `gcRun` embeds `Log::GC`, `runIteration` embeds
`Log::AppendThread::RunThread`, `doAppend` embeds the parts of `Log::DoAppend`
relevant to the last-entry OpId, `reserve` embeds `Log::Reserve`, and
`getLatestEntryOpId` embeds `Log::GetLatestEntryOpId`. The consensus driver
(`updateConsensus`) is modelled from the specification, since its
implementation is not among the source files; its tests are.
-/

namespace KuduLog

/-- A Raft operation identifier: a (term, index) pair. -/
structure OpId where
  term : Nat
  index : Nat
deriving DecidableEq, Repr

/-- The sentinel minimum OpId (0,0), `MinimumOpId()` in the source. -/
def minimumOpId : OpId := ⟨0, 0⟩

/-! ## GC prefix computation (`GetPrefixSizeToGC`, log.cc lines 656-683) -/

/-- The retention indexes supplied by the consensus layer. -/
structure RetentionIndexes where
  for_durability : Int
  for_peers : Int
deriving DecidableEq, Repr

/-- A readable log segment as seen by GC: whether it has a footer, and the
footer's max_replicate_index (meaningful only when the footer exists). -/
structure Segment where
  hasFooter : Bool
  maxReplicateIndex : Int
deriving DecidableEq, Repr

/-- Default segment used with `List.getD` in statements. -/
def segDefault : Segment := ⟨false, 0⟩

/-- The loop body of `GetPrefixSizeToGC`: walks segments from oldest to newest
carrying `rem_segs` (the count of segments not yet added to the prefix) and
counts the deletable prefix.  Mirrors log.cc lines 657-682: break when
`rem_segs <= FLAGS_log_min_segments_to_retain`, when the segment has no
footer, when `max_replicate_index >= retention.for_durability`, or when
`max_replicate_index >= retention.for_peers` and
`rem_segs <= FLAGS_log_max_segments_to_retain`; otherwise count the segment
and decrement `rem_segs`. -/
def gcLoop (minRetain maxRetain : Int) (ri : RetentionIndexes) :
    List Segment → Int → Nat
  | [], _ => 0
  | seg :: rest, remSegs =>
    if remSegs ≤ minRetain then 0
    else if seg.hasFooter = false then 0
    else if ri.for_durability ≤ seg.maxReplicateIndex then 0
    else if ri.for_peers ≤ seg.maxReplicateIndex ∧ remSegs ≤ maxRetain then 0
    else gcLoop minRetain maxRetain ri rest (remSegs - 1) + 1

/-- `GetPrefixSizeToGC(retention_indexes, segments)`: the loop is entered with
`rem_segs = segments.size()`. -/
def getPrefixSizeToGC (minRetain maxRetain : Int) (ri : RetentionIndexes)
    (segments : List Segment) : Nat :=
  gcLoop minRetain maxRetain ri segments (segments.length : Int)

/-- The stopping condition of the GC walk at a segment, given the remaining
segment count at that point. -/
def gcStopHere (minRetain maxRetain : Int) (ri : RetentionIndexes)
    (remaining : Int) (seg : Segment) : Prop :=
  remaining ≤ minRetain ∨ seg.hasFooter = false ∨
    ri.for_durability ≤ seg.maxReplicateIndex ∨
    (ri.for_peers ≤ seg.maxReplicateIndex ∧ remaining ≤ maxRetain)

instance (minRetain maxRetain : Int) (ri : RetentionIndexes)
    (remaining : Int) (seg : Segment) :
    Decidable (gcStopHere minRetain maxRetain ri remaining seg) := by
  unfold gcStopHere; infer_instance

/-- `GetSegmentsToGCUnlocked`: the snapshot resized to the deletable prefix
(log.cc lines 685-690). -/
def gcSegmentsToDelete (minRetain maxRetain : Int) (ri : RetentionIndexes)
    (segments : List Segment) : List Segment :=
  segments.take (getPrefixSizeToGC minRetain maxRetain ri segments)

/-- `Log::GC` (log.cc lines 728-777), reduced to its effect on the segment
sequence: compute the deletable prefix; if it is empty set `num_gced = 0` and
return without trimming; otherwise trim the prefix from the reader and delete
each of its files, counting them in `num_gced`. -/
def gcRun (minRetain maxRetain : Int) (ri : RetentionIndexes)
    (segments : List Segment) : Nat × List Segment :=
  let toDelete := gcSegmentsToDelete minRetain maxRetain ri segments
  if toDelete.isEmpty then (0, segments)
  else (toDelete.length, segments.drop toDelete.length)

theorem gcLoop_le_length (minRetain maxRetain : Int) (ri : RetentionIndexes) :
    ∀ (segs : List Segment) (r : Int),
      gcLoop minRetain maxRetain ri segs r ≤ segs.length := by
  intro segs
  induction segs with
  | nil => intro r; simp [gcLoop]
  | cons seg rest ih =>
    intro r
    unfold gcLoop
    split
    · simp
    · split
      · simp
      · split
        · simp
        · split
          · simp
          · have := ih (r - 1)
            simp only [List.length_cons]
            omega

theorem gcLoop_no_stop (minRetain maxRetain : Int) (ri : RetentionIndexes) :
    ∀ (segs : List Segment) (r : Int) (i : Nat),
      i < gcLoop minRetain maxRetain ri segs r →
      ¬ gcStopHere minRetain maxRetain ri (r - (i : Int)) (segs.getD i segDefault) := by
  intro segs
  induction segs with
  | nil => intro r i h; simp [gcLoop] at h
  | cons seg rest ih =>
    intro r i h
    unfold gcLoop at h
    by_cases h1 : r ≤ minRetain
    · simp [h1] at h
    by_cases h2 : seg.hasFooter = false
    · simp [h1, h2] at h
    by_cases h3 : ri.for_durability ≤ seg.maxReplicateIndex
    · simp [h1, h2, h3] at h
    by_cases h4 : ri.for_peers ≤ seg.maxReplicateIndex ∧ r ≤ maxRetain
    · simp [h1, h2, h3, h4] at h
    simp only [if_neg h1, if_neg h2, if_neg h3, if_neg h4] at h
    cases i with
    | zero =>
      intro hstop
      rcases hstop with hc | hc | hc | hc
      · exact h1 (by simpa using hc)
      · exact h2 hc
      · exact h3 hc
      · exact h4 ⟨hc.1, by simpa using hc.2⟩
    | succ j =>
      have hj : j < gcLoop minRetain maxRetain ri rest (r - 1) := by omega
      have harg : r - ((j + 1 : Nat) : Int) = r - 1 - (j : Int) := by
        push_cast; ring
      rw [harg]
      simp only [List.getD_cons_succ]
      exact ih (r - 1) j hj

theorem gcLoop_stop_at (minRetain maxRetain : Int) (ri : RetentionIndexes) :
    ∀ (segs : List Segment) (r : Int),
      gcLoop minRetain maxRetain ri segs r < segs.length →
      gcStopHere minRetain maxRetain ri
        (r - (gcLoop minRetain maxRetain ri segs r : Int))
        (segs.getD (gcLoop minRetain maxRetain ri segs r) segDefault) := by
  intro segs
  induction segs with
  | nil => intro r h; simp [gcLoop] at h
  | cons seg rest ih =>
    intro r h
    by_cases h1 : r ≤ minRetain
    · simp only [gcLoop, if_pos h1] at h ⊢
      exact Or.inl (by simpa using h1)
    by_cases h2 : seg.hasFooter = false
    · simp only [gcLoop, if_neg h1, if_pos h2] at h ⊢
      exact Or.inr (Or.inl h2)
    by_cases h3 : ri.for_durability ≤ seg.maxReplicateIndex
    · simp only [gcLoop, if_neg h1, if_neg h2, if_pos h3] at h ⊢
      exact Or.inr (Or.inr (Or.inl h3))
    by_cases h4 : ri.for_peers ≤ seg.maxReplicateIndex ∧ r ≤ maxRetain
    · simp only [gcLoop, if_neg h1, if_neg h2, if_neg h3, if_pos h4] at h ⊢
      exact Or.inr (Or.inr (Or.inr ⟨h4.1, by simpa using h4.2⟩))
    simp only [gcLoop, if_neg h1, if_neg h2, if_neg h3, if_neg h4,
      List.length_cons] at h ⊢
    have hlt : gcLoop minRetain maxRetain ri rest (r - 1) < rest.length := by omega
    have harg : r - ((gcLoop minRetain maxRetain ri rest (r - 1) + 1 : Nat) : Int)
        = r - 1 - (gcLoop minRetain maxRetain ri rest (r - 1) : Int) := by
      push_cast; ring
    rw [harg]
    simp only [List.getD_cons_succ]
    exact ih (r - 1) hlt

/-- C1: GC computes the deletable prefix of segments by walking from oldest to
newest and stopping at the first segment for which the remaining segment
count is at most log_min_segments_to_retain, the segment has no footer, its
max_replicate_index reaches retention.for_durability, or its
max_replicate_index reaches retention.for_peers while the remaining count is
at most log_max_segments_to_retain; exactly the segments before that stopping
point form the prefix returned for deletion, and gc() with an empty prefix
returns num_gced = 0 without mutating the segment sequence. -/
theorem getPrefixSizeToGC_first_stop (minRetain maxRetain : Int)
    (ri : RetentionIndexes) (segs : List Segment) :
    getPrefixSizeToGC minRetain maxRetain ri segs ≤ segs.length ∧
    (∀ i, i < getPrefixSizeToGC minRetain maxRetain ri segs →
      ¬ gcStopHere minRetain maxRetain ri ((segs.length : Int) - (i : Int))
          (segs.getD i segDefault)) ∧
    (getPrefixSizeToGC minRetain maxRetain ri segs < segs.length →
      gcStopHere minRetain maxRetain ri
        ((segs.length : Int) - (getPrefixSizeToGC minRetain maxRetain ri segs : Int))
        (segs.getD (getPrefixSizeToGC minRetain maxRetain ri segs) segDefault)) ∧
    gcSegmentsToDelete minRetain maxRetain ri segs
      = segs.take (getPrefixSizeToGC minRetain maxRetain ri segs) ∧
    (getPrefixSizeToGC minRetain maxRetain ri segs = 0 →
      gcRun minRetain maxRetain ri segs = (0, segs)) := by
  refine ⟨gcLoop_le_length minRetain maxRetain ri segs _,
          fun i hi => gcLoop_no_stop minRetain maxRetain ri segs _ i hi,
          fun h => gcLoop_stop_at minRetain maxRetain ri segs _ h,
          rfl,
          fun h => ?_⟩
  simp [gcRun, gcSegmentsToDelete, h]

/-- Example segment sequence for the GC witness: footered segments with max
replicate indexes 20, 45 and 120, then the active (footerless) segment. -/
def gcSegsEx : List Segment := [⟨true, 20⟩, ⟨true, 45⟩, ⟨true, 120⟩, ⟨false, 0⟩]

theorem getPrefixSizeToGC_first_stop_witness :
    getPrefixSizeToGC 1 10 ⟨100, 50⟩ gcSegsEx = 2 ∧
    ¬ gcStopHere 1 10 ⟨100, 50⟩ ((4 : Int) - (1 : Int)) (gcSegsEx.getD 1 segDefault) ∧
    gcStopHere 1 10 ⟨100, 50⟩ ((4 : Int) - (2 : Int)) (gcSegsEx.getD 2 segDefault) ∧
    gcRun 1 10 ⟨0, 0⟩ gcSegsEx = (0, gcSegsEx) := by
  have h := getPrefixSizeToGC_first_stop 1 10 ⟨100, 50⟩ gcSegsEx
  have h0 := getPrefixSizeToGC_first_stop 1 10 ⟨0, 0⟩ gcSegsEx
  refine ⟨by decide, ?_, ?_, ?_⟩
  · have := h.2.1 1 (by decide)
    simpa using this
  · have := h.2.2.1 (by decide)
    have he : getPrefixSizeToGC 1 10 ⟨100, 50⟩ gcSegsEx = 2 := by decide
    rw [he] at this
    simpa using this
  · exact h0.2.2.2.2 (by decide)

/-! ## Status values and the entry queue (`Log::Reserve`, log.cc lines 284-285
and 430-464) -/

/-- The kinds of status the embedded paths distinguish. -/
inductive StatusCode where
  | ok
  | serviceUnavailable
  | ioError
  | corruption
deriving DecidableEq, Repr

/-- A status value: a code and a message. -/
structure KStatus where
  code : StatusCode
  message : String
deriving DecidableEq, Repr

/-- `Status::OK()`. -/
def statusOK : KStatus := ⟨StatusCode.ok, ""⟩

/-- `Log::kLogShutdownStatus` (log.cc lines 284-285). -/
def kLogShutdownStatus : KStatus :=
  ⟨StatusCode.serviceUnavailable, "WAL is shutting down"⟩

/-- The entry batch queue, reduced to what `Reserve` observes: whether the
queue has been shut down, and the ids of the enqueued batches in order. -/
structure EntryQueue where
  isOpen : Bool
  items : List Nat
deriving DecidableEq, Repr

/-- `BlockingQueue::BlockingPut`: enqueue and return true, unless the queue is
shut down, in which case return false without enqueuing.  (Blocking on the
byte budget always eventually succeeds and is invisible to this model.) -/
def blockingPut (q : EntryQueue) (batchId : Nat) : Bool × EntryQueue :=
  if q.isOpen then (true, ⟨q.isOpen, q.items ++ [batchId]⟩) else (false, q)

/-- `Log::Reserve` (log.cc lines 430-464), reduced to the queue interaction:
put the reserved batch on the entry queue; if the put fails (the only failure
is shutdown) return `kLogShutdownStatus`. -/
def reserve (q : EntryQueue) (batchId : Nat) : KStatus × EntryQueue :=
  let r := blockingPut q batchId
  if r.1 then (statusOK, r.2) else (kLogShutdownStatus, r.2)

/-- C7: for every call to Reserve made while the log is shutting down (the
entry queue is closed), Reserve returns a ServiceUnavailable status with the
message "WAL is shutting down" and the batch is not enqueued. -/
theorem reserve_during_shutdown (q : EntryQueue) (batchId : Nat)
    (h : q.isOpen = false) :
    (reserve q batchId).1 = kLogShutdownStatus ∧
    (reserve q batchId).1.code = StatusCode.serviceUnavailable ∧
    (reserve q batchId).1.message = "WAL is shutting down" ∧
    (reserve q batchId).2 = q := by
  simp [reserve, blockingPut, h, kLogShutdownStatus]

theorem reserve_during_shutdown_witness :
    (reserve ⟨false, [7]⟩ 42).1 = kLogShutdownStatus ∧
    (reserve ⟨false, [7]⟩ 42).1.code = StatusCode.serviceUnavailable ∧
    (reserve ⟨false, [7]⟩ 42).1.message = "WAL is shutting down" ∧
    (reserve ⟨false, [7]⟩ 42).2 = ⟨false, [7]⟩ :=
  reserve_during_shutdown ⟨false, [7]⟩ 42 rfl

/-! ## The append thread (`Log::AppendThread::RunThread`, log.cc lines
189-261) -/

/-- The log entry types (log.proto): REPLICATE and COMMIT entries are durable,
FLUSH_MARKER is internal. -/
inductive LogEntryType where
  | REPLICATE
  | COMMIT
  | FLUSH_MARKER
deriving DecidableEq, Repr

/-- A batch as the append thread sees it: an id, the uniform entry type, and
whether its completion callback is non-null. -/
structure ABatch where
  id : Nat
  btype : LogEntryType
  hasCallback : Bool
deriving DecidableEq, Repr

/-- The observable actions of one `RunThread` drain iteration, in order. -/
inductive REvent where
  | attemptAppend (id : Nat)
  | markFailed (id : Nat)
  | runCallback (id : Nat) (s : KStatus)
  | syncCall
  | deleteBatch (id : Nat)
deriving DecidableEq, Repr

/-- Concatenation of the event lists produced for each element. -/
def concatEvents {α : Type} (f : α → List REvent) : List α → List REvent
  | [] => []
  | a :: rest => f a ++ concatEvents f rest

/-- Whether `DoAppend` failed for the batch, per the environment `ar` giving
each batch id its `DoAppend` status. -/
def batchFailed (ar : Nat → KStatus) (b : ABatch) : Bool :=
  if (ar b.id).code = StatusCode.ok then false else true

/-- The per-batch body of the first loop of `RunThread` (log.cc lines
212-230): wait for ready, call `DoAppend`; on failure mark the batch failed
and, if the callback is non-null, run it with the append error. -/
def appendPhaseEvents (ar : Nat → KStatus) (b : ABatch) : List REvent :=
  if (ar b.id).code = StatusCode.ok then [REvent.attemptAppend b.id]
  else [REvent.attemptAppend b.id, REvent.markFailed b.id] ++
    (if b.hasCallback then [REvent.runCallback b.id (ar b.id)] else [])

/-- One drain iteration of `Log::AppendThread::RunThread` (log.cc lines
211-258): run `DoAppend` for every drained batch in order; if the drained
group is not composed solely of COMMIT batches issue one `Sync()`; if the
sync failed run every batch's callback with the sync error, otherwise run the
callback of each batch that did not fail to append with OK and delete each
batch.  `ar` gives the `DoAppend` outcome per batch id and `syncResult` the
outcome of `Sync()`. -/
def runIteration (ar : Nat → KStatus) (syncResult : KStatus)
    (batches : List ABatch) : List REvent :=
  let ev1 := concatEvents (appendPhaseEvents ar) batches
  let isAllCommits := batches.all (fun b => decide (b.btype = LogEntryType.COMMIT))
  let syncEvents : List REvent := if isAllCommits then [] else [REvent.syncCall]
  let s := if isAllCommits then statusOK else syncResult
  let ev3 :=
    if s.code = StatusCode.ok then
      concatEvents (fun b =>
        (if batchFailed ar b = false ∧ b.hasCallback = true
         then [REvent.runCallback b.id statusOK] else [])
        ++ [REvent.deleteBatch b.id]) batches
    else
      concatEvents (fun b =>
        if b.hasCallback then [REvent.runCallback b.id s] else []) batches
  ev1 ++ syncEvents ++ ev3

/-- Recognizer for the sync event. -/
def isSyncCall : REvent → Bool
  | REvent.syncCall => true
  | _ => false

/-- Recognizer for append attempts. -/
def isAttempt : REvent → Bool
  | REvent.attemptAppend _ => true
  | _ => false

/-- Recognizer for callback invocations of a given batch id. -/
def isCallbackFor (i : Nat) : REvent → Bool
  | REvent.runCallback j _ => j == i
  | _ => false

theorem countP_concatEvents_zero {α : Type} (p : REvent → Bool)
    (f : α → List REvent) (l : List α)
    (h : ∀ a ∈ l, (f a).countP p = 0) :
    (concatEvents f l).countP p = 0 := by
  induction l with
  | nil => simp [concatEvents]
  | cons a rest ih =>
    simp only [concatEvents, List.countP_append]
    rw [h a (List.mem_cons_self a rest), ih (fun x hx => h x (List.mem_cons_of_mem a hx))]

theorem mem_concatEvents {α : Type} (f : α → List REvent) (l : List α)
    (a : α) (e : REvent) (ha : a ∈ l) (he : e ∈ f a) :
    e ∈ concatEvents f l := by
  induction l with
  | nil => cases ha
  | cons x rest ih =>
    rcases List.mem_cons.mp ha with h | h
    · subst h; exact List.mem_append_left _ he
    · exact List.mem_append_right _ (ih h)

theorem countP_appendPhase_sync (ar : Nat → KStatus) (b : ABatch) :
    (appendPhaseEvents ar b).countP isSyncCall = 0 := by
  unfold appendPhaseEvents
  split
  · rfl
  · split <;> rfl

theorem countP_sync_ev3_ok (ar : Nat → KStatus) (b : ABatch) :
    ((if batchFailed ar b = false ∧ b.hasCallback = true
      then [REvent.runCallback b.id statusOK] else [])
     ++ [REvent.deleteBatch b.id]).countP isSyncCall = 0 := by
  split <;> rfl

theorem countP_sync_ev3_fail (s : KStatus) (b : ABatch) :
    ((if b.hasCallback then [REvent.runCallback b.id s] else []) :
      List REvent).countP isSyncCall = 0 := by
  split <;> rfl

/-- C3: for every group of batches drained by the appender in one iteration,
the appender issues exactly one Sync() for the whole group if the group
contains at least one batch whose type is not COMMIT, and no Sync() at all if
every batch in the drained group is a COMMIT batch. -/
theorem runIteration_sync_iff_non_commit (ar : Nat → KStatus)
    (syncResult : KStatus) (batches : List ABatch) :
    ((∃ b ∈ batches, b.btype ≠ LogEntryType.COMMIT) →
      (runIteration ar syncResult batches).countP isSyncCall = 1) ∧
    ((∀ b ∈ batches, b.btype = LogEntryType.COMMIT) →
      (runIteration ar syncResult batches).countP isSyncCall = 0) := by
  have h1 : (concatEvents (appendPhaseEvents ar) batches).countP isSyncCall = 0 :=
    countP_concatEvents_zero _ _ _ (fun a _ => countP_appendPhase_sync ar a)
  constructor
  · rintro ⟨b, hb, hbt⟩
    have hall : batches.all (fun b => decide (b.btype = LogEntryType.COMMIT)) = false := by
      rw [List.all_eq_false]
      exact ⟨b, hb, by simpa using hbt⟩
    unfold runIteration
    rw [hall]
    simp only [if_false, Bool.false_eq_true, List.countP_append, h1]
    split
    · rw [countP_concatEvents_zero _ _ _ (fun a _ => countP_sync_ev3_ok ar a)]
      rfl
    · rw [countP_concatEvents_zero _ _ _ (fun a _ => countP_sync_ev3_fail _ a)]
      rfl
  · intro hall
    have hallb : batches.all (fun b => decide (b.btype = LogEntryType.COMMIT)) = true := by
      rw [List.all_eq_true]
      intro b hb
      simpa using hall b hb
    unfold runIteration
    rw [hallb]
    simp only [if_true, List.countP_append, h1]
    rw [if_pos (show statusOK.code = StatusCode.ok from rfl),
      countP_concatEvents_zero _ _ _ (fun a _ => countP_sync_ev3_ok ar a)]
    rfl

theorem runIteration_sync_iff_non_commit_witness :
    (runIteration (fun _ => statusOK) statusOK
        [⟨1, LogEntryType.REPLICATE, true⟩, ⟨2, LogEntryType.COMMIT, true⟩]).countP
        isSyncCall = 1 ∧
    (runIteration (fun _ => statusOK) statusOK
        [⟨3, LogEntryType.COMMIT, true⟩]).countP isSyncCall = 0 := by
  constructor
  · exact (runIteration_sync_iff_non_commit (fun _ => statusOK) statusOK
      [⟨1, LogEntryType.REPLICATE, true⟩, ⟨2, LogEntryType.COMMIT, true⟩]).1
      ⟨⟨1, LogEntryType.REPLICATE, true⟩, by simp, by simp⟩
  · exact (runIteration_sync_iff_non_commit (fun _ => statusOK) statusOK
      [⟨3, LogEntryType.COMMIT, true⟩]).2 (by intro b hb; simp at hb; rw [hb])

theorem filter_concatEvents_map {α : Type} (p : REvent → Bool)
    (f : α → List REvent) (g : α → REvent) (l : List α)
    (h : ∀ a ∈ l, (f a).filter p = [g a]) :
    (concatEvents f l).filter p = l.map g := by
  induction l with
  | nil => rfl
  | cons a rest ih =>
    simp only [concatEvents, List.filter_append, List.map_cons]
    rw [h a (List.mem_cons_self a rest), ih (fun x hx => h x (List.mem_cons_of_mem a hx))]
    rfl

theorem filter_concatEvents_nil {α : Type} (p : REvent → Bool)
    (f : α → List REvent) (l : List α)
    (h : ∀ a ∈ l, (f a).filter p = []) :
    (concatEvents f l).filter p = [] := by
  induction l with
  | nil => rfl
  | cons a rest ih =>
    simp only [concatEvents, List.filter_append]
    rw [h a (List.mem_cons_self a rest), ih (fun x hx => h x (List.mem_cons_of_mem a hx))]
    rfl

theorem filter_attempt_appendPhase (ar : Nat → KStatus) (b : ABatch) :
    (appendPhaseEvents ar b).filter isAttempt = [REvent.attemptAppend b.id] := by
  unfold appendPhaseEvents
  split
  · rfl
  · split <;> rfl

theorem filter_attempt_ev3_ok (ar : Nat → KStatus) (b : ABatch) :
    ((if batchFailed ar b = false ∧ b.hasCallback = true
      then [REvent.runCallback b.id statusOK] else [])
     ++ [REvent.deleteBatch b.id]).filter isAttempt = [] := by
  split <;> rfl

theorem filter_attempt_ev3_fail (s : KStatus) (b : ABatch) :
    ((if b.hasCallback then [REvent.runCallback b.id s] else []) :
      List REvent).filter isAttempt = [] := by
  split <;> rfl

/-- The append attempts of one drain iteration are exactly one `DoAppend` per
drained batch, in drain order, whatever the append and sync outcomes. -/
theorem runIteration_filter_attempt (ar : Nat → KStatus) (syncResult : KStatus)
    (batches : List ABatch) :
    (runIteration ar syncResult batches).filter isAttempt
      = batches.map (fun x => REvent.attemptAppend x.id) := by
  have hev1 := filter_concatEvents_map isAttempt (appendPhaseEvents ar)
      (fun x => REvent.attemptAppend x.id) batches
      (fun a _ => filter_attempt_appendPhase ar a)
  have hok := filter_concatEvents_nil isAttempt
      (fun b => (if batchFailed ar b = false ∧ b.hasCallback = true
        then [REvent.runCallback b.id statusOK] else [])
        ++ [REvent.deleteBatch b.id]) batches
      (fun a _ => filter_attempt_ev3_ok ar a)
  have hfailb := filter_concatEvents_nil isAttempt
      (fun x => if x.hasCallback then [REvent.runCallback x.id syncResult] else [])
      batches (fun a _ => filter_attempt_ev3_fail syncResult a)
  unfold runIteration
  rcases Bool.eq_false_or_eq_true
      (batches.all fun b => decide (b.btype = LogEntryType.COMMIT)) with hc | hc <;>
    rw [hc] <;>
    by_cases hs : syncResult.code = StatusCode.ok <;>
    simp [hev1, hok, hfailb, hs, isAttempt,
      show statusOK.code = StatusCode.ok from rfl]

/-- C8: when DoAppend fails for one batch in a drained group, the appender
marks that batch failed and invokes its callback with the append error, and
still attempts DoAppend on every batch of the drained group in order: a
single failed batch does not stop processing of the rest of the drain. -/
theorem runIteration_continues_after_failure (ar : Nat → KStatus)
    (syncResult : KStatus) (batches : List ABatch) (b : ABatch)
    (hb : b ∈ batches) (hfail : ¬ (ar b.id).code = StatusCode.ok)
    (hcb : b.hasCallback = true) :
    (runIteration ar syncResult batches).filter isAttempt
      = batches.map (fun x => REvent.attemptAppend x.id) ∧
    REvent.markFailed b.id ∈ runIteration ar syncResult batches ∧
    REvent.runCallback b.id (ar b.id) ∈ runIteration ar syncResult batches := by
  have hmem1 : REvent.markFailed b.id ∈ concatEvents (appendPhaseEvents ar) batches := by
    apply mem_concatEvents _ _ b _ hb
    unfold appendPhaseEvents
    rw [if_neg hfail]
    simp
  have hmem2 : REvent.runCallback b.id (ar b.id)
      ∈ concatEvents (appendPhaseEvents ar) batches := by
    apply mem_concatEvents _ _ b _ hb
    unfold appendPhaseEvents
    rw [if_neg hfail, hcb]
    simp
  refine ⟨runIteration_filter_attempt ar syncResult batches, ?_, ?_⟩
  · unfold runIteration
    exact List.mem_append_left _ (List.mem_append_left _ hmem1)
  · unfold runIteration
    exact List.mem_append_left _ (List.mem_append_left _ hmem2)

theorem runIteration_continues_after_failure_witness :
    (runIteration
        (fun i => if i = 1 then ⟨StatusCode.ioError, "Injected IOError in Log::DoAppend()"⟩
                  else statusOK)
        statusOK
        [⟨1, LogEntryType.REPLICATE, true⟩, ⟨2, LogEntryType.REPLICATE, true⟩]).filter
        isAttempt
      = [REvent.attemptAppend 1, REvent.attemptAppend 2] ∧
    REvent.markFailed 1 ∈ runIteration
        (fun i => if i = 1 then ⟨StatusCode.ioError, "Injected IOError in Log::DoAppend()"⟩
                  else statusOK)
        statusOK
        [⟨1, LogEntryType.REPLICATE, true⟩, ⟨2, LogEntryType.REPLICATE, true⟩] ∧
    REvent.runCallback 1 ⟨StatusCode.ioError, "Injected IOError in Log::DoAppend()"⟩
      ∈ runIteration
        (fun i => if i = 1 then ⟨StatusCode.ioError, "Injected IOError in Log::DoAppend()"⟩
                  else statusOK)
        statusOK
        [⟨1, LogEntryType.REPLICATE, true⟩, ⟨2, LogEntryType.REPLICATE, true⟩] := by
  have h := runIteration_continues_after_failure
      (fun i => if i = 1 then ⟨StatusCode.ioError, "Injected IOError in Log::DoAppend()"⟩
                else statusOK)
      statusOK
      [⟨1, LogEntryType.REPLICATE, true⟩, ⟨2, LogEntryType.REPLICATE, true⟩]
      ⟨1, LogEntryType.REPLICATE, true⟩ (by simp) (by simp [statusOK]) rfl
  simpa using h

theorem one_le_countP_of_mem {p : REvent → Bool} {l : List REvent} {e : REvent}
    (he : e ∈ l) (hp : p e = true) : 1 ≤ l.countP p := by
  induction l with
  | nil => cases he
  | cons x rest ih =>
    rcases List.mem_cons.mp he with h | h
    · subst h
      simp [List.countP_cons, hp]
    · have := ih h
      simp only [List.countP_cons]
      omega

/-- C9: if the group Sync() after a drain fails, the appender invokes the
callback of every batch in the drained group with the sync error — including
a batch whose DoAppend already failed and whose callback was already invoked
with the append error, so such a batch's one-shot completion callback is run
a second time. -/
theorem runIteration_sync_failure_double_callback (ar : Nat → KStatus)
    (syncResult : KStatus) (batches : List ABatch) (b : ABatch)
    (hb : b ∈ batches) (hfail : ¬ (ar b.id).code = StatusCode.ok)
    (hsync : ¬ syncResult.code = StatusCode.ok)
    (hcb : b.hasCallback = true)
    (hnc : ∃ c ∈ batches, c.btype ≠ LogEntryType.COMMIT) :
    REvent.runCallback b.id (ar b.id) ∈ runIteration ar syncResult batches ∧
    REvent.runCallback b.id syncResult ∈ runIteration ar syncResult batches ∧
    2 ≤ (runIteration ar syncResult batches).countP (isCallbackFor b.id) := by
  obtain ⟨c, hc, hct⟩ := hnc
  have hall : (batches.all fun x => decide (x.btype = LogEntryType.COMMIT)) = false := by
    rw [List.all_eq_false]
    exact ⟨c, hc, by simpa using hct⟩
  have hmem1 : REvent.runCallback b.id (ar b.id)
      ∈ concatEvents (appendPhaseEvents ar) batches := by
    apply mem_concatEvents _ _ b _ hb
    unfold appendPhaseEvents
    rw [if_neg hfail, hcb]
    simp
  have hmem3 : REvent.runCallback b.id syncResult
      ∈ concatEvents (fun x =>
          if x.hasCallback then [REvent.runCallback x.id syncResult] else [])
        batches := by
    apply mem_concatEvents _ _ b _ hb
    rw [hcb]
    simp
  have hcall1 : isCallbackFor b.id (REvent.runCallback b.id (ar b.id)) = true := by
    simp [isCallbackFor]
  have hcall3 : isCallbackFor b.id (REvent.runCallback b.id syncResult) = true := by
    simp [isCallbackFor]
  unfold runIteration
  rw [hall]
  simp only [Bool.false_eq_true, if_false]
  rw [if_neg hsync]
  refine ⟨List.mem_append_left _ (List.mem_append_left _ hmem1),
          List.mem_append_right _ hmem3, ?_⟩
  simp only [List.countP_append]
  have h1 := one_le_countP_of_mem hmem1 hcall1
  have h3 := one_le_countP_of_mem hmem3 hcall3
  omega

theorem runIteration_sync_failure_double_callback_witness :
    REvent.runCallback 1 ⟨StatusCode.ioError, "append failed"⟩
      ∈ runIteration (fun _ => ⟨StatusCode.ioError, "append failed"⟩)
          ⟨StatusCode.ioError, "sync failed"⟩ [⟨1, LogEntryType.REPLICATE, true⟩] ∧
    REvent.runCallback 1 ⟨StatusCode.ioError, "sync failed"⟩
      ∈ runIteration (fun _ => ⟨StatusCode.ioError, "append failed"⟩)
          ⟨StatusCode.ioError, "sync failed"⟩ [⟨1, LogEntryType.REPLICATE, true⟩] ∧
    2 ≤ (runIteration (fun _ => ⟨StatusCode.ioError, "append failed"⟩)
          ⟨StatusCode.ioError, "sync failed"⟩
          [⟨1, LogEntryType.REPLICATE, true⟩]).countP (isCallbackFor 1) :=
  runIteration_sync_failure_double_callback
    (fun _ => ⟨StatusCode.ioError, "append failed"⟩)
    ⟨StatusCode.ioError, "sync failed"⟩ [⟨1, LogEntryType.REPLICATE, true⟩]
    ⟨1, LogEntryType.REPLICATE, true⟩ (by simp) (by simp) (by simp) rfl
    ⟨⟨1, LogEntryType.REPLICATE, true⟩, by simp, by simp⟩

/-! ## `Log::DoAppend` and `Log::GetLatestEntryOpId` (log.cc lines 512-581
and 719-726) -/

/-- An entry batch as `DoAppend` sees it: an id, the uniform type, the
serialized size (0 only for FLUSH_MARKER batches), and, for REPLICATE
batches, `MaxReplicateOpId()`. -/
structure EntryBatch where
  id : Nat
  btype : LogEntryType
  sizeBytes : Nat
  maxReplicateOpId : OpId
deriving DecidableEq, Repr

/-- The writer-side log state `DoAppend` touches: the in-memory
`last_entry_op_id_` (None while uninitialized), the batches written to the
active segment, and the batches made durable by `Sync()`. -/
structure LogWriterState where
  lastEntryOpId : Option OpId
  written : List Nat
  durable : List Nat
deriving DecidableEq, Repr

/-- The observable actions of `DoAppend`, in program order. -/
inductive AppendAction where
  | setLastEntryOpId (op : OpId)
  | writeEntryBatch (id : Nat)
  | syncSegment
deriving DecidableEq, Repr

/-- `Log::DoAppend` (log.cc lines 512-581), reduced to the order of its
observable actions: return immediately when the batch serializes to zero
bytes; for a REPLICATE batch first set the in-memory `last_entry_op_id_` to
the batch's `MaxReplicateOpId()` under the write lock, and only then write
the framed batch to the active segment.  No fsync happens inside DoAppend. -/
def doAppend (s : LogWriterState) (b : EntryBatch) :
    LogWriterState × List AppendAction :=
  if b.sizeBytes = 0 then (s, [])
  else
    let s1 := if b.btype = LogEntryType.REPLICATE
      then { s with lastEntryOpId := some b.maxReplicateOpId } else s
    let acts1 : List AppendAction := if b.btype = LogEntryType.REPLICATE
      then [AppendAction.setLastEntryOpId b.maxReplicateOpId] else []
    ({ s1 with written := s1.written ++ [b.id] },
     acts1 ++ [AppendAction.writeEntryBatch b.id])

/-- `Log::Sync` (log.cc lines 625-654), reduced to durability: everything
written becomes durable. -/
def logSync (s : LogWriterState) : LogWriterState × List AppendAction :=
  ({ s with durable := s.written }, [AppendAction.syncSegment])

/-- `Log::GetLatestEntryOpId` (log.cc lines 719-726): the in-memory
`last_entry_op_id_` if initialized, else `MinimumOpId()`. -/
def getLatestEntryOpId (s : LogWriterState) : OpId :=
  match s.lastEntryOpId with
  | some op => op
  | none => minimumOpId

/-- C6: for every REPLICATE batch processed by DoAppend, the in-memory
last_entry_op_id is set to the batch's maximum replicate OpId strictly before
the batch's bytes are written, and no fsync happens in between; consequently
GetLatestEntryOpId already returns that OpId while the batch is not yet
durable (when no Sync has yet covered it). -/
theorem doAppend_sets_last_op_before_write (s : LogWriterState)
    (b : EntryBatch) (hrep : b.btype = LogEntryType.REPLICATE)
    (hsz : ¬ b.sizeBytes = 0) :
    (doAppend s b).2 = [AppendAction.setLastEntryOpId b.maxReplicateOpId,
                        AppendAction.writeEntryBatch b.id] ∧
    getLatestEntryOpId (doAppend s b).1 = b.maxReplicateOpId ∧
    (doAppend s b).1.written = s.written ++ [b.id] ∧
    (doAppend s b).1.durable = s.durable ∧
    (¬ b.id ∈ s.durable →
      b.id ∈ (doAppend s b).1.written ∧ ¬ b.id ∈ (doAppend s b).1.durable) := by
  unfold doAppend
  rw [if_neg hsz]
  simp [hrep, getLatestEntryOpId]

theorem doAppend_sets_last_op_before_write_witness :
    (doAppend ⟨none, [], []⟩ ⟨5, LogEntryType.REPLICATE, 100, ⟨2, 7⟩⟩).2
      = [AppendAction.setLastEntryOpId ⟨2, 7⟩, AppendAction.writeEntryBatch 5] ∧
    getLatestEntryOpId (doAppend ⟨none, [], []⟩
        ⟨5, LogEntryType.REPLICATE, 100, ⟨2, 7⟩⟩).1 = ⟨2, 7⟩ ∧
    (doAppend ⟨none, [], []⟩ ⟨5, LogEntryType.REPLICATE, 100, ⟨2, 7⟩⟩).1.written
      = [] ++ [5] ∧
    (doAppend ⟨none, [], []⟩ ⟨5, LogEntryType.REPLICATE, 100, ⟨2, 7⟩⟩).1.durable
      = [] ∧
    (¬ (5 : Nat) ∈ ([] : List Nat) →
      5 ∈ (doAppend ⟨none, [], []⟩
          ⟨5, LogEntryType.REPLICATE, 100, ⟨2, 7⟩⟩).1.written ∧
      ¬ 5 ∈ (doAppend ⟨none, [], []⟩
          ⟨5, LogEntryType.REPLICATE, 100, ⟨2, 7⟩⟩).1.durable) :=
  doAppend_sets_last_op_before_write ⟨none, [], []⟩
    ⟨5, LogEntryType.REPLICATE, 100, ⟨2, 7⟩⟩ rfl (by decide)

/-- C10: if no entry has ever been appended to the log (last_entry_op_id is
uninitialized), GetLatestEntryOpId returns the sentinel minimum OpId (0,0)
rather than failing or leaving the output unset. -/
theorem getLatestEntryOpId_uninitialized (s : LogWriterState)
    (h : s.lastEntryOpId = none) :
    getLatestEntryOpId s = minimumOpId ∧ getLatestEntryOpId s = ⟨0, 0⟩ := by
  unfold getLatestEntryOpId
  rw [h]
  exact ⟨rfl, rfl⟩

theorem getLatestEntryOpId_uninitialized_witness :
    getLatestEntryOpId ⟨none, [], []⟩ = minimumOpId ∧
    getLatestEntryOpId ⟨none, [], []⟩ = ⟨0, 0⟩ :=
  getLatestEntryOpId_uninitialized ⟨none, [], []⟩ rfl

/-! ## The consensus-driver surface (spec §4.10)

The implementation of `RaftConsensus::Update` is not among the source files;
only its integration tests are (raft_consensus-itest.cc).  The definitions of
this section are therefore modelled from the specification, §4.10
("UpdateConsensus(request) → response", steps 1-7) and §8 (the KUDU-639 and
KUDU-1775 invariants), with replicate payloads abstracted to their OpIds. -/

/-- Modelled from the spec: the fields of an UpdateConsensus request that the
model consumes — `caller_term`, `preceding_op_id`, `ops[]` (each op reduced
to its OpId) and `committed_index`. -/
structure ConsensusRequest where
  callerTerm : Nat
  precedingOpId : OpId
  ops : List OpId
  committedIndex : Nat
deriving DecidableEq, Repr

/-- Modelled from the spec: the replica state the model tracks — the current
term, the replicate ops received (in order), the committed index, and the
last op received from the current leader's term ((0,0) if none). -/
structure ReplicaState where
  currentTerm : Nat
  log : List OpId
  committedIndex : Nat
  lastReceivedCurrentLeader : OpId
deriving DecidableEq, Repr

/-- Modelled from the spec: the consensus status returned with every
response — `last_received`, `last_committed_idx` and
`last_received_current_leader`. -/
structure ConsensusStatus where
  lastReceived : OpId
  lastCommittedIdx : Nat
  lastReceivedCurrentLeader : OpId
deriving DecidableEq, Repr

/-- Modelled from the spec: the consensus error codes the model produces. -/
inductive ConsensusError where
  | INVALID_TERM
  | PRECEDING_ENTRY_DIDNT_MATCH
  | INVALID_ARGUMENT (msg : String)
deriving DecidableEq, Repr

/-- Modelled from the spec: an UpdateConsensus response — an optional error
and the replica's current status. -/
structure ConsensusResponse where
  error : Option ConsensusError
  status : ConsensusStatus
deriving DecidableEq, Repr

/-- The last-received OpId derived from a log of replicate ops: the last op,
or the minimum OpId (0,0) for an empty log. -/
def lastReceivedOf (log : List OpId) : OpId := log.getLastD minimumOpId

/-- The status of a replica state, as attached to responses. -/
def statusOf (s : ReplicaState) : ConsensusStatus :=
  ⟨lastReceivedOf s.log, s.committedIndex, s.lastReceivedCurrentLeader⟩

/-- The error message of spec §4.10 step 3 for an out-of-sequence index. -/
def indexSequenceErrorMsg : String :=
  "New operation's index does not follow the previous op's index"

/-- The error message of spec §4.10 step 3 for a term below the previous
op's term. -/
def termSequenceErrorMsg : String :=
  "New operation's term is not >= than the previous op's term"

/-- Modelled from the spec, §4.10 step 3 (intra-batch monotonicity): walk
`ops[]` with the running predecessor, starting from `preceding_op_id`; an op
whose index is not exactly the predecessor's index plus one yields the index
error message, an op whose term is below the predecessor's term yields the
term error message; `none` when every op is in sequence. -/
def checkOpsMonotonic : OpId → List OpId → Option String
  | _, [] => none
  | prev, op :: rest =>
    if ¬ op.index = prev.index + 1 then some indexSequenceErrorMsg
    else if op.term < prev.term then some termSequenceErrorMsg
    else checkOpsMonotonic op rest

/-- The property that `ops` is in sequence after `prev`: each op's index is
exactly its predecessor's index plus one and its term at least its
predecessor's term. -/
def opsMonotonic : OpId → List OpId → Prop
  | _, [] => True
  | prev, op :: rest =>
    op.index = prev.index + 1 ∧ prev.term ≤ op.term ∧ opsMonotonic op rest

instance : ∀ (prev : OpId) (ops : List OpId), Decidable (opsMonotonic prev ops)
  | _, [] => isTrue trivial
  | _, op :: rest =>
    have : Decidable (opsMonotonic op rest) := instDecidableOpsMonotonic op rest
    inferInstanceAs (Decidable (_ ∧ _ ∧ _))

/-- Modelled from the spec, §4.10 step 1 (term check, the adoption half): a
caller term above the replica's becomes the replica's term, and nothing has
been received from that term's leader yet. -/
def adoptTerm (s : ReplicaState) (callerTerm : Nat) : ReplicaState :=
  if s.currentTerm < callerTerm
  then { s with currentTerm := callerTerm, lastReceivedCurrentLeader := minimumOpId }
  else s

/-- Modelled from the spec, §4.10 step 2 together with the KUDU-1775
scenario: when the leader's `preceding_op_id` does not match, a divergent
local op occupying the preceding op's index (same index, different term) is
truncated along with everything after it before the mismatch is reported. -/
def truncateDivergent (log : List OpId) (preceding : OpId) : List OpId :=
  if log.any (fun o => decide (o.index = preceding.index ∧ ¬ o.term = preceding.term))
  then log.filter (fun o => decide (o.index < preceding.index))
  else log

/-- Modelled from the spec, §4.10: UpdateConsensus.  Step 1: a caller term
below the replica's is rejected with INVALID_TERM, a higher one is adopted.
Step 2: if the local log does not contain `preceding_op_id` (index 0 always
matches), truncate any divergent op at its index and respond
PRECEDING_ENTRY_DIDNT_MATCH carrying `last_committed_idx`, `last_received`
and `last_received_current_leader`.  Step 3: reject out-of-sequence `ops[]`
with the corresponding message.  Steps 4-5: ops strictly after
`preceding_op_id` are overwritten by the request's ops and `last_received`
advances.  Step 6: the committed index becomes
`min(request.committed_index, last_received.index)`.  Step 7: the response
carries the resulting status. -/
def updateConsensus (s : ReplicaState) (req : ConsensusRequest) :
    ReplicaState × ConsensusResponse :=
  if req.callerTerm < s.currentTerm then
    (s, ⟨some ConsensusError.INVALID_TERM, statusOf s⟩)
  else
    let s1 := adoptTerm s req.callerTerm
    if req.precedingOpId.index = 0 ∨ req.precedingOpId ∈ s1.log then
      match checkOpsMonotonic req.precedingOpId req.ops with
      | some msg => (s1, ⟨some (ConsensusError.INVALID_ARGUMENT msg), statusOf s1⟩)
      | none =>
        let newLog := if req.ops.isEmpty then s1.log
          else s1.log.filter (fun o => decide (o.index ≤ req.precedingOpId.index))
            ++ req.ops
        let lastRcvd := lastReceivedOf newLog
        let lrcl := req.ops.getLastD s1.lastReceivedCurrentLeader
        let newCommitted := min req.committedIndex lastRcvd.index
        (⟨s1.currentTerm, newLog, newCommitted, lrcl⟩,
         ⟨none, ⟨lastRcvd, newCommitted, lrcl⟩⟩)
    else
      let newLog := truncateDivergent s1.log req.precedingOpId
      (⟨s1.currentTerm, newLog, s1.committedIndex, s1.lastReceivedCurrentLeader⟩,
       ⟨some ConsensusError.PRECEDING_ENTRY_DIDNT_MATCH,
        ⟨lastReceivedOf newLog, s1.committedIndex, s1.lastReceivedCurrentLeader⟩⟩)

/-- Modelled from the spec: a replica restart replays the WAL and consensus
metadata — the term, the replicate ops, and the committed index recorded by
COMMIT messages all survive; nothing has been received from any leader since
the restart. -/
def restartReplica (s : ReplicaState) : ReplicaState :=
  { s with lastReceivedCurrentLeader := minimumOpId }

theorem adoptTerm_log (s : ReplicaState) (t : Nat) : (adoptTerm s t).log = s.log := by
  unfold adoptTerm
  split <;> rfl

theorem adoptTerm_committed (s : ReplicaState) (t : Nat) :
    (adoptTerm s t).committedIndex = s.committedIndex := by
  unfold adoptTerm
  split <;> rfl

theorem adoptTerm_lrcl (s : ReplicaState) (t : Nat) :
    (adoptTerm s t).lastReceivedCurrentLeader
      = if s.currentTerm < t then minimumOpId else s.lastReceivedCurrentLeader := by
  unfold adoptTerm
  by_cases h : s.currentTerm < t
  · rw [if_pos h, if_pos h]
  · rw [if_neg h, if_neg h]

theorem updateConsensus_invalid_term_eq (s : ReplicaState) (req : ConsensusRequest)
    (h1 : req.callerTerm < s.currentTerm) :
    updateConsensus s req = (s, ⟨some ConsensusError.INVALID_TERM, statusOf s⟩) := by
  unfold updateConsensus
  rw [if_pos h1]

theorem updateConsensus_reject_sequence_eq (s : ReplicaState)
    (req : ConsensusRequest) (msg : String)
    (h1 : ¬ req.callerTerm < s.currentTerm)
    (h2 : req.precedingOpId.index = 0 ∨ req.precedingOpId ∈ (adoptTerm s req.callerTerm).log)
    (h3 : checkOpsMonotonic req.precedingOpId req.ops = some msg) :
    updateConsensus s req
      = (adoptTerm s req.callerTerm,
         ⟨some (ConsensusError.INVALID_ARGUMENT msg),
          statusOf (adoptTerm s req.callerTerm)⟩) := by
  unfold updateConsensus
  rw [if_neg h1, if_pos h2, h3]

theorem updateConsensus_accept_eq (s : ReplicaState) (req : ConsensusRequest)
    (h1 : ¬ req.callerTerm < s.currentTerm)
    (h2 : req.precedingOpId.index = 0 ∨ req.precedingOpId ∈ (adoptTerm s req.callerTerm).log)
    (h3 : checkOpsMonotonic req.precedingOpId req.ops = none) :
    updateConsensus s req
      = (let s1 := adoptTerm s req.callerTerm
         let newLog := if req.ops.isEmpty then s1.log
           else s1.log.filter (fun o => decide (o.index ≤ req.precedingOpId.index))
             ++ req.ops
         let lastRcvd := lastReceivedOf newLog
         let lrcl := req.ops.getLastD s1.lastReceivedCurrentLeader
         let newCommitted := min req.committedIndex lastRcvd.index
         (⟨s1.currentTerm, newLog, newCommitted, lrcl⟩,
          ⟨none, ⟨lastRcvd, newCommitted, lrcl⟩⟩)) := by
  unfold updateConsensus
  rw [if_neg h1, if_pos h2, h3]

theorem updateConsensus_mismatch_eq (s : ReplicaState) (req : ConsensusRequest)
    (h1 : ¬ req.callerTerm < s.currentTerm)
    (h2 : ¬ (req.precedingOpId.index = 0 ∨ req.precedingOpId ∈ (adoptTerm s req.callerTerm).log)) :
    updateConsensus s req
      = (let s1 := adoptTerm s req.callerTerm
         let newLog := truncateDivergent s1.log req.precedingOpId
         (⟨s1.currentTerm, newLog, s1.committedIndex, s1.lastReceivedCurrentLeader⟩,
          ⟨some ConsensusError.PRECEDING_ENTRY_DIDNT_MATCH,
           ⟨lastReceivedOf newLog, s1.committedIndex, s1.lastReceivedCurrentLeader⟩⟩)) := by
  unfold updateConsensus
  rw [if_neg h1, if_neg h2]

/-- C2: for every UpdateConsensus request accepted by a replica, the
replica's effective committed index after processing the request is the
minimum of the request's committed_index and the index of the last locally
received operation; in particular the committed index never exceeds the
locally received index, and the response reports that committed index. -/
theorem updateConsensus_commit_bounded (s : ReplicaState)
    (req : ConsensusRequest)
    (hacc : (updateConsensus s req).2.error = none) :
    (updateConsensus s req).1.committedIndex
      = min req.committedIndex (lastReceivedOf (updateConsensus s req).1.log).index ∧
    (updateConsensus s req).1.committedIndex
      ≤ (lastReceivedOf (updateConsensus s req).1.log).index ∧
    (updateConsensus s req).2.status.lastCommittedIdx
      = (updateConsensus s req).1.committedIndex := by
  by_cases h1 : req.callerTerm < s.currentTerm
  · rw [updateConsensus_invalid_term_eq s req h1] at hacc
    simp at hacc
  by_cases h2 : req.precedingOpId.index = 0
      ∨ req.precedingOpId ∈ (adoptTerm s req.callerTerm).log
  · cases h3 : checkOpsMonotonic req.precedingOpId req.ops with
    | some msg =>
      rw [updateConsensus_reject_sequence_eq s req msg h1 h2 h3] at hacc
      simp at hacc
    | none =>
      rw [updateConsensus_accept_eq s req h1 h2 h3]
      exact ⟨rfl, Nat.min_le_right _ _, rfl⟩
  · rw [updateConsensus_mismatch_eq s req h1 h2] at hacc
    simp at hacc

theorem updateConsensus_commit_bounded_witness :
    (updateConsensus ⟨2, [⟨1, 1⟩], 0, ⟨0, 0⟩⟩ ⟨2, ⟨1, 1⟩, [⟨2, 2⟩], 5⟩).1.committedIndex
      = min 5 (lastReceivedOf
          (updateConsensus ⟨2, [⟨1, 1⟩], 0, ⟨0, 0⟩⟩
            ⟨2, ⟨1, 1⟩, [⟨2, 2⟩], 5⟩).1.log).index ∧
    (updateConsensus ⟨2, [⟨1, 1⟩], 0, ⟨0, 0⟩⟩ ⟨2, ⟨1, 1⟩, [⟨2, 2⟩], 5⟩).1.committedIndex
      ≤ (lastReceivedOf
          (updateConsensus ⟨2, [⟨1, 1⟩], 0, ⟨0, 0⟩⟩
            ⟨2, ⟨1, 1⟩, [⟨2, 2⟩], 5⟩).1.log).index :=
  ⟨(updateConsensus_commit_bounded ⟨2, [⟨1, 1⟩], 0, ⟨0, 0⟩⟩
      ⟨2, ⟨1, 1⟩, [⟨2, 2⟩], 5⟩ (by decide)).1,
   (updateConsensus_commit_bounded ⟨2, [⟨1, 1⟩], 0, ⟨0, 0⟩⟩
      ⟨2, ⟨1, 1⟩, [⟨2, 2⟩], 5⟩ (by decide)).2.1⟩

/-- C4: when a replica answers an UpdateConsensus push whose preceding_op_id
it does not hold, the response carries PRECEDING_ENTRY_DIDNT_MATCH together
with the replica's last_committed_idx, last_received (reflecting the
truncation of any divergent op at the preceding op's index) and
last_received_current_leader ((0,0) when nothing has been received from the
current leader's term); and in the KUDU-1775 scenario — ops (2,1),(2,2),(2,3)
received with committed index 2, a restart, then a push with caller term 3
and preceding op (3,3) — the first mismatch response reports
last_committed_idx = 2 as persisted before the restart, last_received =
(2,2) after truncating the divergent (2,3), and
last_received_current_leader = (0,0). -/
theorem updateConsensus_lmp_mismatch_report (s : ReplicaState)
    (req : ConsensusRequest)
    (h1 : ¬ req.callerTerm < s.currentTerm)
    (h2 : ¬ (req.precedingOpId.index = 0
             ∨ req.precedingOpId ∈ (adoptTerm s req.callerTerm).log)) :
    (updateConsensus s req).2.error
      = some ConsensusError.PRECEDING_ENTRY_DIDNT_MATCH ∧
    (updateConsensus s req).2.status.lastCommittedIdx = s.committedIndex ∧
    (updateConsensus s req).2.status.lastReceived
      = lastReceivedOf (truncateDivergent s.log req.precedingOpId) ∧
    (updateConsensus s req).2.status.lastReceivedCurrentLeader
      = (if s.currentTerm < req.callerTerm then minimumOpId
         else s.lastReceivedCurrentLeader) ∧
    (updateConsensus (restartReplica ⟨2, [⟨2, 1⟩, ⟨2, 2⟩, ⟨2, 3⟩], 2, ⟨2, 3⟩⟩)
        ⟨3, ⟨3, 3⟩, [⟨3, 4⟩], 2⟩).2
      = ⟨some ConsensusError.PRECEDING_ENTRY_DIDNT_MATCH, ⟨⟨2, 2⟩, 2, ⟨0, 0⟩⟩⟩ := by
  rw [updateConsensus_mismatch_eq s req h1 h2]
  simp only [adoptTerm_log, adoptTerm_committed, adoptTerm_lrcl]
  exact ⟨trivial, trivial, trivial, trivial, by decide⟩

theorem updateConsensus_lmp_mismatch_report_witness :
    (updateConsensus ⟨2, [⟨2, 1⟩, ⟨2, 2⟩], 1, ⟨2, 2⟩⟩ ⟨2, ⟨2, 5⟩, [], 0⟩).2.error
      = some ConsensusError.PRECEDING_ENTRY_DIDNT_MATCH ∧
    (updateConsensus ⟨2, [⟨2, 1⟩, ⟨2, 2⟩], 1, ⟨2, 2⟩⟩
        ⟨2, ⟨2, 5⟩, [], 0⟩).2.status.lastCommittedIdx = 1 :=
  ⟨(updateConsensus_lmp_mismatch_report ⟨2, [⟨2, 1⟩, ⟨2, 2⟩], 1, ⟨2, 2⟩⟩
      ⟨2, ⟨2, 5⟩, [], 0⟩ (by decide) (by decide)).1,
   (updateConsensus_lmp_mismatch_report ⟨2, [⟨2, 1⟩, ⟨2, 2⟩], 1, ⟨2, 2⟩⟩
      ⟨2, ⟨2, 5⟩, [], 0⟩ (by decide) (by decide)).2.1⟩

theorem checkOpsMonotonic_none_iff : ∀ (ops : List OpId) (prev : OpId),
    checkOpsMonotonic prev ops = none ↔ opsMonotonic prev ops := by
  intro ops
  induction ops with
  | nil => intro prev; simp [checkOpsMonotonic, opsMonotonic]
  | cons op rest ih =>
    intro prev
    by_cases h1 : op.index = prev.index + 1
    · by_cases h2 : op.term < prev.term
      · simp [checkOpsMonotonic, opsMonotonic, h1, h2, Nat.not_le_of_lt h2]
      · simp [checkOpsMonotonic, opsMonotonic, h1, h2, Nat.le_of_not_lt h2, ih op]
    · simp [checkOpsMonotonic, opsMonotonic, h1]

/-- C5: within the ops[] vector of an UpdateConsensus request, the sequence
check walks the ops with preceding_op_id as the first op's predecessor: an op
whose index is not exactly the previous op's index plus one yields the error
message "New operation's index does not follow the previous op's index", an
op in sequence by index but whose term is smaller than the previous op's term
yields "New operation's term is not >= than the previous op's term", the
check passes exactly when no op violates either rule, and a request whose
ops fail the check is rejected with the produced message. -/
theorem updateConsensus_rejects_out_of_sequence_ops :
    (∀ (prev : OpId) (ops : List OpId),
      checkOpsMonotonic prev ops = none ↔ opsMonotonic prev ops) ∧
    (∀ (prev op : OpId) (rest : List OpId), ¬ op.index = prev.index + 1 →
      checkOpsMonotonic prev (op :: rest) = some indexSequenceErrorMsg) ∧
    (∀ (prev op : OpId) (rest : List OpId), op.index = prev.index + 1 →
      op.term < prev.term →
      checkOpsMonotonic prev (op :: rest) = some termSequenceErrorMsg) ∧
    (∀ (prev op : OpId) (rest : List OpId), op.index = prev.index + 1 →
      prev.term ≤ op.term →
      checkOpsMonotonic prev (op :: rest) = checkOpsMonotonic op rest) ∧
    (∀ (s : ReplicaState) (req : ConsensusRequest) (msg : String),
      ¬ req.callerTerm < s.currentTerm →
      (req.precedingOpId.index = 0
        ∨ req.precedingOpId ∈ (adoptTerm s req.callerTerm).log) →
      checkOpsMonotonic req.precedingOpId req.ops = some msg →
      (updateConsensus s req).2.error
        = some (ConsensusError.INVALID_ARGUMENT msg)) := by
  refine ⟨fun prev ops => checkOpsMonotonic_none_iff ops prev,
          fun prev op rest h1 => ?_,
          fun prev op rest h1 h2 => ?_,
          fun prev op rest h1 h2 => ?_,
          fun s req msg h1 h2 h3 => ?_⟩
  · show (if ¬ op.index = prev.index + 1 then some indexSequenceErrorMsg
      else if op.term < prev.term then some termSequenceErrorMsg
      else checkOpsMonotonic op rest) = some indexSequenceErrorMsg
    rw [if_pos h1]
  · show (if ¬ op.index = prev.index + 1 then some indexSequenceErrorMsg
      else if op.term < prev.term then some termSequenceErrorMsg
      else checkOpsMonotonic op rest) = some termSequenceErrorMsg
    rw [if_neg (not_not_intro h1), if_pos h2]
  · show (if ¬ op.index = prev.index + 1 then some indexSequenceErrorMsg
      else if op.term < prev.term then some termSequenceErrorMsg
      else checkOpsMonotonic op rest) = checkOpsMonotonic op rest
    rw [if_neg (not_not_intro h1), if_neg (Nat.not_lt_of_le h2)]
  · rw [updateConsensus_reject_sequence_eq s req msg h1 h2 h3]

theorem updateConsensus_rejects_out_of_sequence_ops_witness :
    checkOpsMonotonic ⟨2, 4⟩ [⟨2, 6⟩] = some indexSequenceErrorMsg ∧
    checkOpsMonotonic ⟨2, 4⟩ [⟨3, 5⟩, ⟨2, 6⟩] = some termSequenceErrorMsg ∧
    (updateConsensus ⟨2, [⟨2, 4⟩], 1, ⟨2, 4⟩⟩ ⟨2, ⟨2, 4⟩, [⟨2, 6⟩], 1⟩).2.error
      = some (ConsensusError.INVALID_ARGUMENT indexSequenceErrorMsg) := by
  refine ⟨?_, ?_, ?_⟩
  · exact updateConsensus_rejects_out_of_sequence_ops.2.1 ⟨2, 4⟩ ⟨2, 6⟩ []
      (by decide)
  · rw [updateConsensus_rejects_out_of_sequence_ops.2.2.2.1 ⟨2, 4⟩ ⟨3, 5⟩ [⟨2, 6⟩]
      (by decide) (by decide)]
    exact updateConsensus_rejects_out_of_sequence_ops.2.2.1 ⟨3, 5⟩ ⟨2, 6⟩ []
      (by decide) (by decide)
  · exact updateConsensus_rejects_out_of_sequence_ops.2.2.2.2
      ⟨2, [⟨2, 4⟩], 1, ⟨2, 4⟩⟩ ⟨2, ⟨2, 4⟩, [⟨2, 6⟩], 1⟩ indexSequenceErrorMsg
      (by decide) (by decide) (by decide)

end KuduLog
